import Mathlib

/-!
Shallow embedding of the tsx-mailer rendering core.

The definitions below are translated from the repository's source:
  * `escapeHtml`, `renderAttrs`, `renderChildren`, `renderToString`,
    `Fragment`, `render`              — src/jsx-runtime.ts
  * `formatEmailAddress`, `formatEmailAddresses`, `isTemplateResult`
                                      — src/types.ts
  * `TsxMailer.formatSubject`, `TsxMailer.renderHtml`, the subject
    resolution in `TsxMailer.send`    — src/mailer.ts

Strings are modelled by Lean `String` (a packed `List Char`); JavaScript
numbers appearing as attribute values / children are modelled by `Int`
with its canonical decimal printing (the claims under study never depend
on float formatting).  JavaScript objects (`props`, `style`) are modelled
as association lists in insertion order, which is exactly the order
`Object.entries` iterates for string keys.
-/

set_option maxRecDepth 20000

namespace TsxMailer

/-- One global single-character replacement, the semantics of
`str.replace(/c/g, rep)` for a single-character pattern `c`. -/
def replAll (c : Char) (rep : List Char) (l : List Char) : List Char :=
  l.flatMap (fun x => if x = c then rep else [x])

/-- `escapeHtml` from src/jsx-runtime.ts, lines 25-32: five sequential
global replacements, `&` first, then `<`, `>`, `"`, `'`. -/
def escapeHtmlL (l : List Char) : List Char :=
  replAll '\'' "&#39;".data
    (replAll '"' "&quot;".data
      (replAll '>' "&gt;".data
        (replAll '<' "&lt;".data
          (replAll '&' "&amp;".data l))))

def escapeHtml (s : String) : String :=
  ⟨escapeHtmlL s.data⟩

/-- The five-character escaping map as the spec words it: each of
`& < > " '` goes to its named entity, every other character is kept.
This is the spec-side, one-pass description to compare with the
sequential implementation. -/
def escCharSpec (c : Char) : List Char :=
  if c = '&' then "&amp;".data
  else if c = '<' then "&lt;".data
  else if c = '>' then "&gt;".data
  else if c = '"' then "&quot;".data
  else if c = '\'' then "&#39;".data
  else [c]

def escapeSpec (s : String) : String :=
  ⟨s.data.flatMap escCharSpec⟩

/-- `VOID_ELEMENTS` from src/jsx-runtime.ts, lines 14-17. -/
def voidElements : List String :=
  ["area", "base", "br", "col", "embed", "hr", "img", "input",
   "link", "meta", "param", "source", "track", "wbr"]

/-- `BOOLEAN_ATTRS` from src/jsx-runtime.ts, lines 19-23. -/
def booleanAttrs : List String :=
  ["disabled", "checked", "readonly", "required", "hidden",
   "selected", "multiple", "autofocus", "autoplay", "controls",
   "loop", "muted", "open", "defer", "async"]

/-- A value inside a `style` object (`Record<string, string | number>`). -/
inductive StyleVal where
  | str (s : String)
  | num (n : Int)
deriving DecidableEq

/-- `String(v)` applied to a style value. -/
def StyleVal.toStr : StyleVal → String
  | .str s => s
  | .num n => toString n

/-- A JavaScript value sitting in a props record, as far as the renderer
inspects it: booleans, strings, numbers, null, undefined, and plain
objects (used for `style`). -/
inductive AttrValue where
  | boolv (b : Bool)
  | str (s : String)
  | num (n : Int)
  | nullv
  | undef
  | obj (entries : List (String × StyleVal))
deriving DecidableEq

/-- ASCII uppercase test, the `/[A-Z]/` regex class. -/
def isUpper (c : Char) : Bool :=
  'A' ≤ c && c ≤ 'Z'

/-- ASCII lowercasing of one character (`String.prototype.toLowerCase`
restricted to the ASCII range, which is all the claims exercise). -/
def lowerChar (c : Char) : Char :=
  if isUpper c then Char.ofNat (c.toNat + 32) else c

def lowerL (l : List Char) : List Char :=
  l.map lowerChar

/-- `k.replace(/([A-Z])/g, '-$1').toLowerCase()` from
src/jsx-runtime.ts, line 52: insert `-` before each ASCII uppercase
letter, then lowercase the whole string. -/
def cssKey (k : String) : String :=
  ⟨lowerL (k.data.flatMap (fun c => if isUpper c then ['-', c] else [c]))⟩

/-- The kebab-case conversion as the spec words it: a hyphen inserted
before each uppercase letter, which is lowercased; other characters
unchanged. -/
def cssKeySpec (k : String) : String :=
  ⟨k.data.flatMap (fun c => if isUpper c then ['-', lowerChar c] else [c])⟩

/-- The CSS declaration string built from a style object,
src/jsx-runtime.ts, lines 50-55. -/
def styleString (entries : List (String × StyleVal)) : String :=
  String.intercalate "; "
    (entries.map (fun kv => cssKey kv.1 ++ ": " ++ kv.2.toStr))

/-- One iteration of the `renderAttrs` loop (src/jsx-runtime.ts,
lines 37-58): the string pushed for a props entry, or `none` when the
entry is skipped. -/
def attrOut (k : String) (v : AttrValue) : Option String :=
  if k = "children" ∨ k = "key" ∨ k = "ref" then none
  else if v = AttrValue.boolv false ∨ v = AttrValue.nullv ∨ v = AttrValue.undef then
    none
  else
    let a := if k = "className" then "class" else k
    if booleanAttrs.contains a ∧ v = AttrValue.boolv true then some a
    else
      match v with
      | AttrValue.str s => some (a ++ "=\"" ++ escapeHtml s ++ "\"")
      | AttrValue.num n => some (a ++ "=\"" ++ escapeHtml (toString n) ++ "\"")
      | AttrValue.obj entries =>
          if a = "style" then
            some ("style=\"" ++ escapeHtml (styleString entries) ++ "\"")
          else none
      | _ => none

/-- `renderAttrs` from src/jsx-runtime.ts, lines 34-61. -/
def renderAttrs (props : List (String × AttrValue)) : String :=
  let attrs := props.filterMap (fun kv => attrOut kv.1 kv.2)
  if attrs.isEmpty then "" else " " ++ String.intercalate " " attrs

mutual

/-- `VNode` from src/jsx-runtime.ts: a type (tag name or function
component), a props record in insertion order, and a children list. -/
inductive VNode where
  | mk (type : NType) (props : List (String × AttrValue)) (children : List Child)

/-- The `type` field of a VNode: a tag-name string or a function
component.  A component is a pure function of its props record (the
source passes `{...props, children}`; the claims under study only use
components whose result does not inspect the merged record). -/
inductive NType where
  | tag (t : String)
  | comp (f : List (String × AttrValue) → VNode)

/-- `Child` from src/jsx-runtime.ts, line 3. -/
inductive Child where
  | str (s : String)
  | num (n : Int)
  | boolv (b : Bool)
  | nullv
  | undef
  | node (v : VNode)
  | arr (cs : List Child)

end

mutual

/-- `renderToString` from src/jsx-runtime.ts, lines 83-109, on VNodes. -/
def renderToString : VNode → String
  | VNode.mk (NType.comp f) props _children => renderToString (f props)
  | VNode.mk (NType.tag t) props children =>
      let attrs := renderAttrs props
      if voidElements.contains t then
        "<" ++ t ++ attrs ++ " />"
      else
        "<" ++ t ++ attrs ++ ">" ++ renderChildren children ++ "</" ++ t ++ ">"

/-- `renderChildren` from src/jsx-runtime.ts, lines 63-81: per-child
strings joined by `''`. -/
def renderChildren : List Child → String
  | [] => ""
  | c :: cs => renderChild c ++ renderChildren cs

/-- The arrow function inside `renderChildren` (lines 65-79). -/
def renderChild : Child → String
  | Child.nullv => ""
  | Child.undef => ""
  | Child.boolv _ => ""
  | Child.str s => escapeHtml s
  | Child.num n => toString n
  | Child.arr cs => renderChildren cs
  | Child.node v => renderToString v

end

/-- `Fragment` from src/jsx-runtime.ts, lines 131-137. -/
def Fragment (children : List Child) : VNode :=
  VNode.mk (NType.tag "fragment") [] children

/-- The argument type of `renderToString` / `render`:
`VNode | string | number | null | undefined`. -/
inductive RInput where
  | node (v : VNode)
  | str (s : String)
  | num (n : Int)
  | nullv
  | undef

/-- `renderToString` on its full argument type (lines 83-90 handle the
non-VNode cases). -/
def renderTop : RInput → String
  | RInput.node v => renderToString v
  | RInput.str s => escapeHtml s
  | RInput.num n => escapeHtml (toString n)
  | RInput.nullv => ""
  | RInput.undef => ""

/-- `render` from src/jsx-runtime.ts, lines 144-149: a fragment-typed
object at the top level renders as its children; everything else goes
through `renderToString`. -/
def render : RInput → String
  | RInput.node (VNode.mk (NType.tag "fragment") _ children) =>
      renderChildren children
  | i => renderTop i

/-- `EmailAddress` from src/types.ts, line 8: a bare string or a
structured `{name, email}` value. -/
inductive EmailAddress where
  | str (s : String)
  | named (name email : String)
deriving DecidableEq

/-- `name.replace(/"/g, '\\"')` from src/types.ts, line 20. -/
def escQuote (l : List Char) : List Char :=
  replAll '"' ['\\', '"'] l

/-- `formatEmailAddress` from src/types.ts, lines 14-23. -/
def formatEmailAddress : EmailAddress → String
  | EmailAddress.str s => s
  | EmailAddress.named n e =>
      let nm :=
        if n.data.contains ',' || n.data.contains '"' then
          "\"" ++ String.mk (escQuote n.data) ++ "\""
        else n
      nm ++ " <" ++ e ++ ">"

/-- The argument type of `formatEmailAddresses`:
`EmailAddress | EmailAddress[]`. -/
inductive Addresses where
  | one (a : EmailAddress)
  | many (l : List EmailAddress)

/-- `formatEmailAddresses` from src/types.ts, lines 28-31: wrap a single
address into a one-element array, then map-format and join with `", "`. -/
def formatEmailAddresses : Addresses → String
  | Addresses.one a => String.intercalate ", " ([a].map formatEmailAddress)
  | Addresses.many l => String.intercalate ", " (l.map formatEmailAddress)

/-- The subject-affix configuration of `MailerConfig`
(src/types.ts, lines 45-53).  The field names follow the source's
`subjectPrefix` / `subjectSuffix` (shortened spellings). -/
structure MailerCfg where
  subjectPre : Option String
  subjectSuf : Option String

/-- `TsxMailer.formatSubject` from src/mailer.ts, lines 36-40:
`(prefix ?? '') + subject + (suffix ?? '')`. -/
def formatSubject (cfg : MailerCfg) (subject : String) : String :=
  cfg.subjectPre.getD "" ++ subject ++ cfg.subjectSuf.getD ""

/-- `EmailMeta` from src/types.ts (only the field the subject claims
need). -/
structure EmailMeta where
  subject : Option String

/-- `options.subject ?? meta?.subject` from src/mailer.ts, line 119. -/
def resolveRawSubject (optSubject : Option String) (meta : Option EmailMeta) :
    Option String :=
  match optSubject with
  | some s => some s
  | none =>
      match meta with
      | some m => m.subject
      | none => none

def subjectErrMsg : String :=
  "Email subject is required. Provide it in options or template metadata."

/-- The message descriptor handed to `transporter.sendMail`
(src/mailer.ts, lines 128-137), restricted to the fields the subject
claim observes. -/
structure SendPayload where
  subject : String
  html : String
deriving DecidableEq

/-- The subject-resolution part of `TsxMailer.send`
(src/mailer.ts, lines 118-137): compute `rawSubject`, throw when it is
falsy (`undefined` or the empty string), otherwise build the payload
with the affixed subject.  An `Except.error` result models the throw on
line 121, which happens before `sendMail` is ever invoked; a payload is
only built on the `Except.ok` path. -/
def sendModel (cfg : MailerCfg) (optSubject : Option String)
    (meta : Option EmailMeta) (html : String) : Except String SendPayload :=
  match resolveRawSubject optSubject meta with
  | none => Except.error subjectErrMsg
  | some s =>
      if s = "" then Except.error subjectErrMsg
      else Except.ok ⟨formatSubject cfg s, html⟩

/-- Number of occurrences of `pat` in `l` (all start positions,
overlaps counted). -/
def countOcc (pat : List Char) : List Char → Nat
  | [] => 0
  | c :: rest =>
      (if pat.isPrefixOf (c :: rest) then 1 else 0) + countOcc pat rest

/-- `haystack.includes(pat)` for a non-empty pattern:
some start position carries the pattern. -/
def hasOcc (pat : List Char) : List Char → Bool
  | [] => false
  | c :: rest => pat.isPrefixOf (c :: rest) || hasOcc pat rest

/-- The pattern of the `body.toLowerCase().includes('<html')` check. -/
def patHtml : List Char :=
  ['<', 'h', 't', 'm', 'l']

/-- `'<!DOCTYPE html>\n'`, the start of both branches of `renderHtml`. -/
def docType : String :=
  "<!DOCTYPE html>\n"

/-- Everything before `${body}` in the template literal of
src/mailer.ts, lines 76-83. -/
def wrapHead : String :=
  "<!DOCTYPE html>\n<html>\n<head>\n  <meta charset=\"utf-8\">\n  <meta name=\"viewport\" content=\"width=device-width, initial-scale=1.0\">\n</head>\n<body>\n"

/-- Everything after `${body}` in the template literal of
src/mailer.ts, lines 83-85. -/
def wrapTail : String :=
  "\n</body>\n</html>"

/-- The wrapping step of `TsxMailer.renderHtml` (src/mailer.ts,
lines 67-86) applied to the already-rendered body string. -/
def renderHtmlStr (body : String) : String :=
  if hasOcc patHtml (lowerL body.data) then docType ++ body
  else wrapHead ++ body ++ wrapTail

/-- `TsxMailer.renderHtml` from src/mailer.ts, lines 67-86. -/
def renderHtml (v : VNode) : String :=
  renderHtmlStr (render (RInput.node v))

/-! ### Helper lemmas -/

theorem replAll_append (c : Char) (rep a b : List Char) :
    replAll c rep (a ++ b) = replAll c rep a ++ replAll c rep b := by
  simp [replAll]

theorem escapeHtmlL_append (a b : List Char) :
    escapeHtmlL (a ++ b) = escapeHtmlL a ++ escapeHtmlL b := by
  simp [escapeHtmlL, replAll_append]

theorem escapeHtmlL_single (c : Char) : escapeHtmlL [c] = escCharSpec c := by
  by_cases h1 : c = '&'
  · subst h1; decide
  by_cases h2 : c = '<'
  · subst h2; decide
  by_cases h3 : c = '>'
  · subst h3; decide
  by_cases h4 : c = '"'
  · subst h4; decide
  by_cases h5 : c = '\''
  · subst h5; decide
  simp [escapeHtmlL, replAll, escCharSpec, h1, h2, h3, h4, h5]

theorem escapeHtmlL_eq_flatMap (l : List Char) :
    escapeHtmlL l = l.flatMap escCharSpec := by
  induction l with
  | nil => rfl
  | cons c l ih =>
    have hsplit : escapeHtmlL (c :: l) = escapeHtmlL [c] ++ escapeHtmlL l := by
      simpa using escapeHtmlL_append [c] l
    rw [hsplit, ih, escapeHtmlL_single, List.flatMap_cons]

theorem escapeHtml_eq_spec (s : String) : escapeHtml s = escapeSpec s := by
  unfold escapeHtml escapeSpec
  rw [escapeHtmlL_eq_flatMap]

/-! ### C1 -/

/-- C1: rendering a string text leaf, and serializing a string attribute
value, applies the one-pass escaping map: each occurrence of the five
characters `& < > " '` is replaced by its named entity exactly once, all
other characters are left unchanged, and ampersands introduced by a
replacement are never escaped again (the sequential-replacement
implementation equals the one-pass per-character map `escCharSpec`). -/
theorem escape_onepass_c1 :
    (∀ s : String, renderChild (Child.str s) = escapeSpec s) ∧
    (∀ s : String, escapeHtml s = escapeSpec s) ∧
    (∀ (k : String) (s : String), ¬(k = "children" ∨ k = "key" ∨ k = "ref") →
      attrOut k (AttrValue.str s) =
        some ((if k = "className" then "class" else k) ++ "=\"" ++ escapeSpec s ++ "\"")) := by
  refine ⟨fun s => ?_, fun s => escapeHtml_eq_spec s, fun k s hk => ?_⟩
  · show escapeHtml s = escapeSpec s
    exact escapeHtml_eq_spec s
  · rw [attrOut, if_neg hk, if_neg (by simp), if_neg (by simp)]
    show some ((if k = "className" then "class" else k) ++ "=\"" ++ escapeHtml s ++ "\"") = _
    rw [escapeHtml_eq_spec]

theorem escape_onepass_c1_witness :
    attrOut "title" (AttrValue.str "a&b") = some ("title=\"a&amp;b\"") := by
  have h := escape_onepass_c1.2.2 "title" "a&b" (by decide)
  simpa using h

/-! ### C5 -/

/-- C5: an intrinsic node whose tag is in the void-element set renders as
the self-closing form `<tag ATTRS />` with its children ignored and no
closing tag; a non-void intrinsic node whose children render to nothing
renders as `<tag ATTRS></tag>`. -/
theorem void_elements_c5 :
    (∀ (t : String) (props : List (String × AttrValue)) (children : List Child),
      voidElements.contains t = true →
      renderToString (VNode.mk (NType.tag t) props children) =
        "<" ++ t ++ renderAttrs props ++ " />") ∧
    (∀ (t : String) (props : List (String × AttrValue)) (children : List Child),
      voidElements.contains t = false →
      renderChildren children = "" →
      renderToString (VNode.mk (NType.tag t) props children) =
        "<" ++ t ++ renderAttrs props ++ "></" ++ t ++ ">") := by
  constructor
  · intro t props children h
    have hm : t ∈ voidElements := by simpa using h
    simp [renderToString, hm]
  · intro t props children h hc
    have hm : t ∉ voidElements := by simpa using h
    simp [renderToString, hm, hc]
    rw [String.append_assoc ("<" ++ t ++ renderAttrs props) ">" "</"]
    rfl

theorem void_elements_c5_witness :
    renderToString (VNode.mk (NType.tag "img") [] [Child.str "ignored"]) = "<img />" ∧
    renderToString (VNode.mk (NType.tag "div") [] []) = "<div></div>" := by
  constructor
  · have h := void_elements_c5.1 "img" [] [Child.str "ignored"] (by decide)
    simpa using h
  · have h := void_elements_c5.2 "div" [] [] (by decide) rfl
    simpa using h

/-! ### C7 -/

/-- C7: for an attribute whose post-rename key is in the boolean-attribute
set, the serializer emits the bare attribute name (no value) exactly when
the value is the boolean `true`; for any key, a `false`, `null` or
`undefined` value omits the attribute entirely; and the mapping
`checked: true, disabled: false` yields exactly the single bare attribute
`checked`. -/
theorem boolean_attrs_c7 :
    (∀ (k : String) (v : AttrValue),
      booleanAttrs.contains (if k = "className" then "class" else k) = true →
      (attrOut k v = some (if k = "className" then "class" else k) ↔
        v = AttrValue.boolv true)) ∧
    (∀ k : String, attrOut k (AttrValue.boolv false) = none ∧
      attrOut k AttrValue.nullv = none ∧ attrOut k AttrValue.undef = none) ∧
    renderAttrs [("checked", AttrValue.boolv true), ("disabled", AttrValue.boolv false)] =
      " checked" := by
  refine ⟨?_, ?_, by decide⟩
  · intro k v h
    have hskip : ¬(k = "children" ∨ k = "key" ∨ k = "ref") := by
      rintro (rfl | rfl | rfl) <;> exact absurd h (by decide)
    have hq : ("=\"" : String).length = 2 := rfl
    have hq1 : ("\"" : String).length = 1 := rfl
    constructor
    · intro hout
      by_contra hv
      cases v with
      | boolv b =>
        cases b with
        | false => simp [attrOut, hskip] at hout
        | true => exact hv rfl
      | nullv => simp [attrOut, hskip] at hout
      | undef => simp [attrOut, hskip] at hout
      | str s =>
        rw [attrOut, if_neg hskip, if_neg (by simp), if_neg (by simp)] at hout
        have hout' : some ((if k = "className" then "class" else k) ++ "=\"" ++
            escapeHtml s ++ "\"") = some (if k = "className" then "class" else k) := hout
        have hlen := congrArg (fun o => (Option.getD o "").length) hout'
        simp only [Option.getD_some, String.length_append, hq, hq1] at hlen
        omega
      | num n =>
        rw [attrOut, if_neg hskip, if_neg (by simp), if_neg (by simp)] at hout
        have hout' : some ((if k = "className" then "class" else k) ++ "=\"" ++
            escapeHtml (toString n) ++ "\"") = some (if k = "className" then "class" else k) := hout
        have hlen := congrArg (fun o => (Option.getD o "").length) hout'
        simp only [Option.getD_some, String.length_append, hq, hq1] at hlen
        omega
      | obj entries =>
        rw [attrOut, if_neg hskip, if_neg (by simp), if_neg (by simp)] at hout
        have hout' : (if (if k = "className" then "class" else k) = "style" then
            some ("style=\"" ++ escapeHtml (styleString entries) ++ "\"")
          else none) = some (if k = "className" then "class" else k) := hout
        by_cases hst : (if k = "className" then "class" else k) = "style"
        · rw [hst] at h
          exact absurd h (by decide)
        · simp [hst] at hout'
    · intro hv
      subst hv
      rw [attrOut, if_neg hskip, if_neg (by simp), if_pos ⟨h, rfl⟩]
  · intro k
    refine ⟨?_, ?_, ?_⟩ <;>
      · rw [attrOut]
        by_cases hskip : k = "children" ∨ k = "key" ∨ k = "ref"
        · rw [if_pos hskip]
        · rw [if_neg hskip, if_pos (by simp)]

theorem boolean_attrs_c7_witness :
    attrOut "checked" (AttrValue.boolv true) = some "checked" := by
  have h := (boolean_attrs_c7.1 "checked" (AttrValue.boolv true) (by decide)).mpr rfl
  simpa using h

/-! ### C10 -/

/-- C10: an attribute whose value is the boolean `true` but whose
post-rename key is not in the boolean-attribute set is omitted entirely:
its entry contributes nothing and the serialized output is exactly that
of the same mapping without the entry. -/
theorem true_non_boolean_dropped_c10 :
    ∀ (pre post : List (String × AttrValue)) (k : String),
      booleanAttrs.contains (if k = "className" then "class" else k) = false →
      attrOut k (AttrValue.boolv true) = none ∧
      renderAttrs (pre ++ (k, AttrValue.boolv true) :: post) =
        renderAttrs (pre ++ post) := by
  intro pre post k h
  have hout : attrOut k (AttrValue.boolv true) = none := by
    rw [attrOut]
    by_cases hskip : k = "children" ∨ k = "key" ∨ k = "ref"
    · rw [if_pos hskip]
    · rw [if_neg hskip, if_neg (by simp),
        if_neg (fun hcon => by rw [h] at hcon; exact absurd hcon.1 (by decide))]
  refine ⟨hout, ?_⟩
  have hlist : List.filterMap (fun kv => attrOut kv.1 kv.2)
      (pre ++ (k, AttrValue.boolv true) :: post) =
      List.filterMap (fun kv => attrOut kv.1 kv.2) (pre ++ post) := by
    simp [List.filterMap_append, List.filterMap_cons, hout]
  simp only [renderAttrs]
  rw [hlist]

theorem true_non_boolean_dropped_c10_witness :
    renderAttrs [("id", AttrValue.str "a"), ("data-big", AttrValue.boolv true)] =
      renderAttrs [("id", AttrValue.str "a")] := by
  have h := true_non_boolean_dropped_c10 [("id", AttrValue.str "a")] [] "data-big" (by decide)
  simpa using h.2

/-! ### C8 -/

theorem cssKeyL_eq (l : List Char) :
    lowerL (l.flatMap fun c => if isUpper c then ['-', c] else [c]) =
      l.flatMap fun c => if isUpper c then ['-', lowerChar c] else [c] := by
  induction l with
  | nil => rfl
  | cons c l ih =>
    by_cases h : isUpper c
    · simp only [List.flatMap_cons, lowerL, List.map_append] at *
      rw [if_pos h, if_pos h]
      simp only [List.map_cons, List.map_nil]
      rw [ih]
      have hdash : lowerChar '-' = '-' := by decide
      rw [hdash]
    · simp only [List.flatMap_cons, lowerL, List.map_append] at *
      rw [if_neg h, if_neg h]
      simp only [List.map_cons, List.map_nil]
      rw [ih]
      have hc : lowerChar c = c := by simp [lowerChar, h]
      rw [hc]

theorem cssKey_eq_spec (k : String) : cssKey k = cssKeySpec k := by
  unfold cssKey cssKeySpec
  rw [cssKeyL_eq]

/-- C8: a `style` attribute whose value is a mapping is flattened to a
CSS declaration string: each key converted from camelCase to kebab-case
(a hyphen inserted before each uppercase letter, which is lowercased),
entries rendered as `prop: value` and joined by `"; "`, the whole string
HTML-escaped and emitted inside double quotes; in particular
`{backgroundColor: 'red', fontSize: '16px'}` serializes to
`style="background-color: red; font-size: 16px"`. -/
theorem style_object_c8 :
    (∀ k : String, cssKey k = cssKeySpec k) ∧
    (∀ entries : List (String × StyleVal),
      attrOut "style" (AttrValue.obj entries) =
        some ("style=\"" ++
          escapeHtml (String.intercalate "; "
            (entries.map fun kv => cssKeySpec kv.1 ++ ": " ++ kv.2.toStr)) ++ "\"")) ∧
    renderAttrs [("style", AttrValue.obj
        [("backgroundColor", StyleVal.str "red"), ("fontSize", StyleVal.str "16px")])] =
      " style=\"background-color: red; font-size: 16px\"" := by
  refine ⟨cssKey_eq_spec, ?_, by decide⟩
  intro entries
  rw [attrOut, if_neg (by simp), if_neg (by simp), if_neg (by simp)]
  have hfun : (fun kv : String × StyleVal => cssKey kv.1 ++ ": " ++ kv.2.toStr) =
      fun kv : String × StyleVal => cssKeySpec kv.1 ++ ": " ++ kv.2.toStr := by
    funext kv
    rw [cssKey_eq_spec]
  simp [styleString, hfun]

/-! ### C6 -/

/-- C6: formatting leaves a bare string address unchanged; a structured
`{name, email}` value formats as `name <email>`, with the name wrapped in
double quotes (each internal double quote escaped as `\"`) exactly when
it contains a comma or a double quote; a sequence formats as its members
individually formatted and joined by `", "` in input order, so the empty
sequence formats as the empty string. -/
theorem format_addresses_c6 :
    (∀ s : String, formatEmailAddress (EmailAddress.str s) = s) ∧
    (∀ n e : String, (n.data.contains ',' || n.data.contains '"') = false →
      formatEmailAddress (EmailAddress.named n e) = n ++ " <" ++ e ++ ">") ∧
    (∀ n e : String, (n.data.contains ',' || n.data.contains '"') = true →
      formatEmailAddress (EmailAddress.named n e) =
        "\"" ++ String.mk (n.data.flatMap fun c => if c = '"' then ['\\', '"'] else [c]) ++
          "\"" ++ " <" ++ e ++ ">") ∧
    (∀ l : List EmailAddress,
      formatEmailAddresses (Addresses.many l) =
        String.intercalate ", " (l.map formatEmailAddress)) ∧
    formatEmailAddresses (Addresses.many []) = "" ∧
    (∀ a : EmailAddress,
      formatEmailAddresses (Addresses.one a) = formatEmailAddress a) := by
  refine ⟨fun s => rfl, ?_, ?_, fun l => rfl, rfl, ?_⟩
  · intro n e h
    simp only [formatEmailAddress, h]
    rfl
  · intro n e h
    simp only [formatEmailAddress, h, if_pos]
    rw [String.append_assoc "\"" (String.mk (escQuote n.data)) "\"",
      String.append_assoc "\"" (String.mk (n.data.flatMap fun c =>
        if c = '"' then ['\\', '"'] else [c])) "\""]
    rfl
  · intro a
    show String.intercalate ", " [formatEmailAddress a] = formatEmailAddress a
    rfl

theorem format_addresses_c6_witness :
    formatEmailAddress (EmailAddress.named "Doe, John" "john@example.com") =
      "\"Doe, John\" <john@example.com>" ∧
    formatEmailAddress (EmailAddress.named "Support Team" "support@example.com") =
      "Support Team <support@example.com>" := by
  constructor
  · have h := format_addresses_c6.2.2.1 "Doe, John" "john@example.com" (by decide)
    simpa using h
  · have h := format_addresses_c6.2.1 "Support Team" "support@example.com" (by decide)
    simpa using h

/-! ### C9 -/

/-- C9: rendering is deterministic and referentially transparent: it is a
pure function of the input tree, so structurally identical trees
(attribute insertion order included, which the model keeps as list
order) render to byte-identical output strings; no implicit global state
enters the computation, whose only inputs are the tree and the two fixed
element/attribute tables. -/
theorem render_deterministic_c9 :
    ∀ t₁ t₂ : RInput, t₁ = t₂ → render t₁ = render t₂ := by
  intro t₁ t₂ h
  rw [h]

theorem render_deterministic_c9_witness :
    render (RInput.node (VNode.mk (NType.tag "p")
        ([("id", AttrValue.str "x")] ++ [("className", AttrValue.str "c")])
        [Child.str "hi"])) =
      render (RInput.node (VNode.mk (NType.tag "p")
        [("id", AttrValue.str "x"), ("className", AttrValue.str "c")]
        [Child.str "hi"])) :=
  render_deterministic_c9 _ _ (by rfl)

/-! ### C3 -/

/-- C3 counterexample: the claim says a present `options.subject` is used
as the resolved subject and sending proceeds, but for the present empty
string the code's falsiness test (`!rawSubject`) throws the validation
error instead, so no payload with subject `"" = prefix + "" + suffix` is
ever produced. -/
theorem subject_empty_counterexample_c3 :
    sendModel ⟨none, none⟩ (some "") none "h" = Except.error subjectErrMsg ∧
    ¬ sendModel ⟨none, none⟩ (some "") none "h" =
        Except.ok ⟨"", "h"⟩ := by
  constructor
  · rfl
  · intro h
    rw [show sendModel ⟨none, none⟩ (some "") none "h" =
        Except.error subjectErrMsg from rfl] at h
    exact Except.noConfusion h

/-- C3 (amended): the subject is resolved as `options.subject` if
present, else `meta.subject`; if neither is present, or the resolved
subject is the empty string, send fails with the validation error before
any payload for the transport is built (`sendMail` is never invoked);
otherwise the transmitted subject is `prefix + subject + suffix` with
each affix defaulting to the empty string. -/
theorem subject_resolution_c3 :
    ∀ (cfg : MailerCfg) (optS : Option String) (meta : Option EmailMeta) (html : String),
      (∀ s, optS = some s → resolveRawSubject optS meta = some s) ∧
      (∀ m, optS = none → meta = some m → resolveRawSubject optS meta = m.subject) ∧
      (optS = none → meta = none → resolveRawSubject optS meta = none) ∧
      (resolveRawSubject optS meta = none ∨ resolveRawSubject optS meta = some "" →
        sendModel cfg optS meta html = Except.error subjectErrMsg) ∧
      (∀ s, resolveRawSubject optS meta = some s → s ≠ "" →
        sendModel cfg optS meta html =
          Except.ok ⟨cfg.subjectPre.getD "" ++ s ++ cfg.subjectSuf.getD "", html⟩) := by
  intro cfg optS meta html
  refine ⟨?_, ?_, ?_, ?_, ?_⟩
  · intro s hs
    subst hs
    rfl
  · intro m ho hm
    subst ho; subst hm
    rfl
  · intro ho hm
    subst ho; subst hm
    rfl
  · intro h
    rcases h with h | h <;> simp [sendModel, h]
  · intro s hres hne
    simp [sendModel, hres, hne, formatSubject]

theorem subject_resolution_c3_witness :
    sendModel ⟨some "[App] ", some " :: mail"⟩ (some "Hello") (some ⟨some "Meta"⟩) "b" =
      Except.ok ⟨"[App] Hello :: mail", "b"⟩ ∧
    sendModel ⟨none, none⟩ none none "b" = Except.error subjectErrMsg := by
  constructor
  · have h := (subject_resolution_c3 ⟨some "[App] ", some " :: mail"⟩
      (some "Hello") (some ⟨some "Meta"⟩) "b").2.2.2.2 "Hello" (by decide) (by decide)
    simpa using h
  · have h := (subject_resolution_c3 ⟨none, none⟩ none none "b").2.2.2.1
      (Or.inl (by decide))
    simpa using h

/-! ### C2 -/

/-- C2 (code bug): a fragment-typed node passed directly to `render` at
the top level does render as the bare concatenation of its children, but
`renderToString` has no fragment case, so a fragment occurring as a child
of an intrinsic element — or produced by a function component — is
rendered as a literal `<fragment>` element, contradicting the claim that
a Fragment never contributes a wrapping tag anywhere in the tree. -/
theorem fragment_rendering_c2 :
    render (RInput.node (Fragment
        [Child.node (VNode.mk (NType.tag "a") [] []),
         Child.node (VNode.mk (NType.tag "b") [] [])])) = "<a></a><b></b>" ∧
    render (RInput.node (VNode.mk (NType.tag "div") []
        [Child.node (Fragment [Child.str "hi"])])) =
      "<div><fragment>hi</fragment></div>" ∧
    renderToString (VNode.mk
        (NType.comp fun _ => Fragment [Child.str "hi"]) [] []) =
      "<fragment>hi</fragment>" := by
  refine ⟨by decide, by decide, by decide⟩

/-! ### C4 -/

theorem lowerL_append (a b : List Char) :
    lowerL (a ++ b) = lowerL a ++ lowerL b := by
  simp [lowerL]

theorem isPrefixOf_append_of_le {pat x : List Char} (y : List Char)
    (h : pat.length ≤ x.length) :
    pat.isPrefixOf (x ++ y) = pat.isPrefixOf x := by
  induction pat generalizing x with
  | nil => simp [List.isPrefixOf]
  | cons c cs ih =>
    cases x with
    | nil => simp at h
    | cons d ds =>
      show (c == d && cs.isPrefixOf (ds ++ y)) = (c == d && cs.isPrefixOf ds)
      rw [ih (by simpa using h)]

theorem isPrefixOf_eq_false_of_lt {pat x : List Char} (h : x.length < pat.length) :
    pat.isPrefixOf x = false := by
  induction pat generalizing x with
  | nil => simp at h
  | cons c cs ih =>
    cases x with
    | nil => rfl
    | cons d ds =>
      show (c == d && cs.isPrefixOf ds) = false
      rw [ih (by simpa using h), Bool.and_false]

/-- Occurrence counting distributes over append when no occurrence can
span the junction: for each proper split of the pattern, its left part
is not a suffix of `a` together with its right part starting `b`. -/
theorem countOcc_append (pat a b : List Char)
    (h : ∀ k, 0 < k → k < pat.length →
      ¬(pat.take k <:+ a ∧ (pat.drop k).isPrefixOf b = true)) :
    countOcc pat (a ++ b) = countOcc pat a + countOcc pat b := by
  induction a with
  | nil => simp [countOcc]
  | cons d a' ih =>
    have h' : ∀ k, 0 < k → k < pat.length →
        ¬(pat.take k <:+ a' ∧ (pat.drop k).isPrefixOf b = true) := by
      intro k hk0 hkl hand
      exact h k hk0 hkl ⟨hand.1.trans (List.suffix_cons d a'), hand.2⟩
    have key : pat.isPrefixOf (d :: (a' ++ b)) = pat.isPrefixOf (d :: a') := by
      by_cases hl : pat.length ≤ (d :: a').length
      · have hres := isPrefixOf_append_of_le b hl
        simpa using hres
      · push_neg at hl
        rw [isPrefixOf_eq_false_of_lt hl]
        cases htrue : pat.isPrefixOf (d :: (a' ++ b)) with
        | false => rfl
        | true =>
          exfalso
          have hpre : pat <+: (d :: a') ++ b := by
            rw [← List.isPrefixOf_iff_prefix]
            simpa using htrue
          have hpat : pat = ((d :: a') ++ b).take pat.length :=
            List.prefix_iff_eq_take.mp hpre
          apply h (d :: a').length (by simp) hl
          constructor
          · have htake : pat.take (d :: a').length = d :: a' := by
              rw [hpat, List.take_take, Nat.min_eq_left (Nat.le_of_lt hl)]
              exact List.take_left (d :: a') b
            rw [htake]
          · rw [hpat, List.drop_take, List.drop_left, List.isPrefixOf_iff_prefix]
            exact List.take_prefix _ _
    show countOcc pat (d :: (a' ++ b)) = countOcc pat (d :: a') + countOcc pat b
    simp only [countOcc]
    rw [key, ih h']
    omega

theorem hasOcc_false_iff (pat l : List Char) :
    hasOcc pat l = false ↔ countOcc pat l = 0 := by
  induction l with
  | nil => simp [hasOcc, countOcc]
  | cons c rest ih =>
    simp only [hasOcc, countOcc, Bool.or_eq_false_iff]
    cases hp : pat.isPrefixOf (c :: rest) <;> simp [ih]

/-- C4 counterexample: a body that renders with two (case-insensitive)
occurrences of `<html` passes the verbatim branch unchanged, so the
compiled document contains two occurrences of `<html`, not exactly
one as the claim states. -/
theorem double_html_counterexample_c4 :
    countOcc patHtml (lowerL (renderHtml (VNode.mk (NType.tag "html") []
      [Child.node (VNode.mk (NType.tag "html") [] [])])).data) = 2 ∧
    ¬ countOcc patHtml (lowerL (renderHtml (VNode.mk (NType.tag "html") []
      [Child.node (VNode.mk (NType.tag "html") [] [])])).data) = 1 := by
  decide

/-- C4 (amended): the compiled HTML string always begins with the
literal `<!DOCTYPE html>` followed by a newline; if the rendered body
contains `<html` under a case-insensitive check, the doctype is followed
by the body verbatim and the output contains exactly as many
case-insensitive occurrences of `<html` as the body does; otherwise the
body is wrapped in the synthesized boilerplate document and the output
contains exactly one occurrence of `<html` (no double-wrap). -/
theorem renderhtml_wrapping_c4 :
    (∀ v : VNode, renderHtml v = renderHtmlStr (render (RInput.node v))) ∧
    ∀ body : String,
      ((renderHtmlStr body).data.take 16 = docType.data) ∧
      (hasOcc patHtml (lowerL body.data) = true →
        renderHtmlStr body = docType ++ body ∧
        countOcc patHtml (lowerL (renderHtmlStr body).data) =
          countOcc patHtml (lowerL body.data)) ∧
      (hasOcc patHtml (lowerL body.data) = false →
        renderHtmlStr body = wrapHead ++ body ++ wrapTail ∧
        countOcc patHtml (lowerL (renderHtmlStr body).data) = 1) := by
  refine ⟨fun v => rfl, fun body => ⟨?_, ?_, ?_⟩⟩
  · by_cases hb : hasOcc patHtml (lowerL body.data) = true
    · have heq : renderHtmlStr body = docType ++ body := by
        simp [renderHtmlStr, hb]
      rw [heq, String.data_append, List.take_append_of_le_length (by decide)]
      decide
    · have heq : renderHtmlStr body = wrapHead ++ body ++ wrapTail := by
        simp [renderHtmlStr, hb]
      rw [heq, String.append_assoc, String.data_append,
        List.take_append_of_le_length (by decide)]
      decide
  · intro hb
    have heq : renderHtmlStr body = docType ++ body := by
      simp [renderHtmlStr, hb]
    refine ⟨heq, ?_⟩
    have hspan : ∀ k, 0 < k → k < patHtml.length →
        ¬(patHtml.take k <:+ lowerL docType.data ∧
          (patHtml.drop k).isPrefixOf (lowerL body.data) = true) := by
      intro k hk0 hk5 hand
      have hk5' : k < 5 := hk5
      interval_cases k <;> exact absurd hand.1 (by decide)
    rw [heq, String.data_append, lowerL_append, countOcc_append patHtml _ _ hspan]
    rw [show countOcc patHtml (lowerL docType.data) = 0 by decide]
    omega
  · intro hb
    have heq : renderHtmlStr body = wrapHead ++ body ++ wrapTail := by
      simp [renderHtmlStr, hb]
    refine ⟨heq, ?_⟩
    have hbody0 : countOcc patHtml (lowerL body.data) = 0 :=
      (hasOcc_false_iff patHtml (lowerL body.data)).mp (by simpa using hb)
    have hspan1 : ∀ k, 0 < k → k < patHtml.length →
        ¬(patHtml.take k <:+ lowerL wrapHead.data ∧
          (patHtml.drop k).isPrefixOf (lowerL body.data ++ lowerL wrapTail.data) = true) := by
      intro k hk0 hk5 hand
      have hk5' : k < 5 := hk5
      interval_cases k <;> exact absurd hand.1 (by decide)
    have hspan2 : ∀ k, 0 < k → k < patHtml.length →
        ¬(patHtml.take k <:+ lowerL body.data ∧
          (patHtml.drop k).isPrefixOf (lowerL wrapTail.data) = true) := by
      intro k hk0 hk5 hand
      have hk5' : k < 5 := hk5
      interval_cases k <;> exact absurd hand.2 (by decide)
    rw [heq, String.append_assoc, String.data_append, String.data_append,
      lowerL_append, lowerL_append, countOcc_append patHtml _ _ hspan1,
      countOcc_append patHtml _ _ hspan2]
    rw [hbody0, show countOcc patHtml (lowerL wrapHead.data) = 1 by decide,
      show countOcc patHtml (lowerL wrapTail.data) = 0 by decide]

theorem renderhtml_wrapping_c4_witness :
    renderHtmlStr "<html></html>" = docType ++ "<html></html>" ∧
    countOcc patHtml (lowerL (renderHtmlStr "<p>x</p>").data) = 1 := by
  constructor
  · exact ((renderhtml_wrapping_c4.2 "<html></html>").2.1 (by decide)).1
  · exact ((renderhtml_wrapping_c4.2 "<p>x</p>").2.2 (by decide)).2

end TsxMailer
